import Mathlib

/-!
Verification of the Secure-Vault-System core against its specification.

The development shallowly embeds the trust kernel of the repository:
the envelope-encryption engine, the hash-chained audit ledger, the
policy decision engine (`src/services/encryptionService.js`) and the
secret lifecycle manager (`src/unnamed/part_000`, i.e. `secretService.js`).

Modelling conventions:
* JavaScript strings are modelled as Lean `String`s; byte buffers as
  `List Nat` with each element `< 256` where it matters.
* The AES-256-GCM primitive of the external `crypto` library is modelled
  as an ideal authenticated box: sealing records the key, iv and the exact
  plaintext bytes; opening succeeds exactly when the supplied key has the
  required 32-byte length (as `createDecipheriv` enforces for aes-256-gcm)
  and equals the sealing key (as the GCM tag check enforces).
* SHA-256 of the external `crypto` library is modelled as an ideal
  collision-free digest, represented by the tagged preimage.
* The relational store is modelled as explicit in-memory state; the
  transactional `BEGIN`/`COMMIT`/`ROLLBACK` block of `rotateSecret` is
  modelled by building the candidate state and either returning it whole
  (commit) or returning an error with the original state kept (rollback).
-/

deriving instance DecidableEq for Except

namespace Vault

/-- A byte buffer (Node `Buffer`), one natural number per byte. -/
abbrev Bytes := List Nat

/-- The single-quote character, used by the source's template literals. -/
def quoteCh : String := String.singleton (Char.ofNat 39)

/-! ## UTF-8 decoding (model of `buffer.toString('utf8')`)

Node decodes invalid sequences to U+FFFD.  We model a JS string as a Lean
`String`; an astral code point becomes one Lean `Char` (JS would use a
surrogate pair), which only shortens the string and never lengthens it. -/

/-- Is `b` a UTF-8 continuation byte (`0x80`–`0xBF`)? -/
def isCont (b : Nat) : Bool := 128 ≤ b && b ≤ 191

/-- Decode one UTF-8 scalar starting at byte `b` with remaining input `rest`.
Returns the decoded character (U+FFFD on malformed input) and how many bytes
of `rest` were consumed in addition to `b`. -/
def utf8DecodeStep (b : Nat) (rest : List Nat) : Char × Nat :=
  if b ≤ 127 then (Char.ofNat b, 0)
  else if 194 ≤ b && b ≤ 223 then
    match rest with
    | b2 :: _ =>
      if isCont b2 then (Char.ofNat ((b - 192) * 64 + (b2 - 128)), 1)
      else (Char.ofNat 65533, 0)
    | [] => (Char.ofNat 65533, 0)
  else if 224 ≤ b && b ≤ 239 then
    match rest with
    | b2 :: b3 :: _ =>
      if (if b = 224 then 160 ≤ b2 && b2 ≤ 191
          else if b = 237 then 128 ≤ b2 && b2 ≤ 159
          else isCont b2) && isCont b3 then
        (Char.ofNat ((b - 224) * 4096 + (b2 - 128) * 64 + (b3 - 128)), 2)
      else (Char.ofNat 65533, 0)
    | _ => (Char.ofNat 65533, 0)
  else if 240 ≤ b && b ≤ 244 then
    match rest with
    | b2 :: b3 :: b4 :: _ =>
      if (if b = 240 then 144 ≤ b2 && b2 ≤ 191
          else if b = 244 then 128 ≤ b2 && b2 ≤ 143
          else isCont b2) && isCont b3 && isCont b4 then
        (Char.ofNat ((b - 240) * 262144 + (b2 - 128) * 4096 + (b3 - 128) * 64 + (b4 - 128)), 3)
      else (Char.ofNat 65533, 0)
    | _ => (Char.ofNat 65533, 0)
  else (Char.ofNat 65533, 0)

/-- Decode a byte buffer as UTF-8 with replacement characters. -/
def utf8Decode (bs : List Nat) : List Char :=
  match bs with
  | [] => []
  | b :: rest =>
    let s := utf8DecodeStep b rest
    s.1 :: utf8Decode (rest.drop s.2)
termination_by bs.length
decreasing_by
  simp only [List.length_cons, List.length_drop]
  omega

/-- Model of `buffer.toString('utf8')` as a Lean `String`. -/
def utf8DecodeStr (bs : List Nat) : String := ⟨utf8Decode bs⟩

/-- UTF-8 encode a single character (model of `Buffer.from(s, 'utf8')`). -/
def utf8EncodeChar (c : Char) : List Nat :=
  let n := c.toNat
  if n ≤ 127 then [n]
  else if n ≤ 2047 then [192 + n / 64, 128 + n % 64]
  else if n ≤ 65535 then [224 + n / 4096, 128 + n / 64 % 64, 128 + n % 64]
  else [240 + n / 262144, 128 + n / 4096 % 64, 128 + n / 64 % 64, 128 + n % 64]

/-- Model of `Buffer.from(s, 'utf8')`: UTF-8 encode a JS string. -/
def utf8Encode (s : String) : Bytes := (s.data.map utf8EncodeChar).flatten

/-! ## Base64 decoding (model of `Buffer.from(s, 'base64')`)

Node's base64 decoder is lenient: characters outside the (url-safe extended)
alphabet are ignored, and each remaining group of four sextets yields three
bytes (a trailing group of three yields two, of two yields one). -/

/-- Map a base64 alphabet character to its sextet, `none` for any other
character (which Node's lenient decoder skips). -/
def b64Val (c : Char) : Option Nat :=
  let n := c.toNat
  if 65 ≤ n && n ≤ 90 then some (n - 65)
  else if 97 ≤ n && n ≤ 122 then some (n - 71)
  else if 48 ≤ n && n ≤ 57 then some (n + 4)
  else if n = 43 || n = 45 then some 62
  else if n = 47 || n = 95 then some 63
  else none

/-- Reassemble bytes from a list of sextets, four at a time. -/
def base64DecodeVals : List Nat → List Nat
  | a :: b :: c :: d :: rest =>
    (a * 4 + b / 16) :: ((b % 16) * 16 + c / 4) :: ((c % 4) * 64 + d) ::
      base64DecodeVals rest
  | [a, b, c] => [a * 4 + b / 16, (b % 16) * 16 + c / 4]
  | [a, b] => [a * 4 + b / 16]
  | _ => []

/-- Model of `Buffer.from(s, 'base64')`. -/
def bufferFromBase64 (s : String) : Bytes :=
  base64DecodeVals (s.data.filterMap b64Val)

/-! ## The envelope encryption engine (`encryptionService.js`) -/

/-- Ideal model of an AES-256-GCM sealed envelope: the source's
`(ciphertext, iv, authTag)` triple determines, under the sealing key, the
exact plaintext, so the envelope is represented by that data directly. -/
structure SealedBox where
  key : Bytes
  iv : Bytes
  plaintext : Bytes
deriving DecidableEq

/-- Model of `encryptWithKey(key, plaintext)` with the randomly generated `iv` made
an explicit argument. -/
def encryptWithKey (key : Bytes) (plaintext : Bytes) (iv : Bytes) : SealedBox :=
  { key := key, iv := iv, plaintext := plaintext }

/-- Model of `decryptWithKey(key, ciphertext, iv, authTag)`: `createDecipheriv`
rejects a key whose length is not 32 bytes for aes-256-gcm; otherwise the
GCM tag check succeeds exactly for the sealing key, and the plaintext bytes
are returned as `plaintext.toString('utf8')`. -/
def decryptWithKey (key : Bytes) (box : SealedBox) : Except String String :=
  if key.length ≠ 32 then .error "Invalid key length"
  else if box.key = key then .ok (utf8DecodeStr box.plaintext)
  else .error "Unsupported state or unable to authenticate data"

/-- The two sealed envelopes returned by `encryptSecret`; the JSON
packaging/parsing of the envelope fields (which round-trips exactly) is
modelled by the structure itself. -/
structure EncPair where
  encryptedValue : SealedBox
  encryptedDEK : SealedBox
deriving DecidableEq

/-- Model of `encryptSecret(secretValue)` with the random DEK and the two random IVs
made explicit arguments (`masterKey` models `MASTER_KEY_BUFFER`). -/
def encryptSecret (masterKey : Bytes) (secretValue : String)
    (dek ivV ivD : Bytes) : EncPair :=
  { encryptedValue := encryptWithKey dek (utf8Encode secretValue) ivV,
    encryptedDEK := encryptWithKey masterKey dek ivD }

/-- Model of `decryptSecret(encryptedValue, encryptedDEK)`: unseal the DEK with the
master key, rebuild it with `Buffer.from(dekString, 'base64')`, unseal the
value; any thrown error is caught and replaced by the generic message. -/
def decryptSecret (masterKey : Bytes) (pair : EncPair) : Except String String :=
  match decryptWithKey masterKey pair.encryptedDEK with
  | .error _ => .error "Failed to decrypt secret"
  | .ok dekString =>
    let dek := bufferFromBase64 dekString
    match decryptWithKey dek pair.encryptedValue with
    | .error _ => .error "Failed to decrypt secret"
    | .ok plaintext => .ok plaintext

/-- Model of `maskSecret(secretValue)`: first `min(8, len)` characters, then
`max(16, len - visibleChars)` bullet characters; the empty (falsy) string
yields the fixed eight-bullet marker. -/
def maskSecret (secretValue : String) : String :=
  if secretValue.length = 0 then "••••••••"
  else
    let visibleChars := min 8 secretValue.length
    let visible : String := ⟨secretValue.data.take visibleChars⟩
    let masked : String := ⟨List.replicate (max 16 (secretValue.length - visibleChars)) '•'⟩
    visible ++ masked

/-! ## Length bounds used for claim C1 -/

theorem utf8Decode_length_le (n : Nat) :
    ∀ bs : List Nat, bs.length ≤ n → (utf8Decode bs).length ≤ bs.length := by
  induction n with
  | zero =>
    intro bs h
    have hbs : bs = [] := List.length_eq_zero.mp (Nat.le_zero.mp h)
    subst hbs
    simp [utf8Decode]
  | succ n ih =>
    intro bs h
    match bs with
    | [] => simp [utf8Decode]
    | b :: rest =>
      rw [utf8Decode]
      have hdrop : (rest.drop (utf8DecodeStep b rest).2).length ≤ n := by
        have := List.length_drop (utf8DecodeStep b rest).2 rest
        simp only [List.length_cons] at h
        omega
      have hrec := ih (rest.drop (utf8DecodeStep b rest).2) hdrop
      have hlen := List.length_drop (utf8DecodeStep b rest).2 rest
      simp only [List.length_cons]
      omega

theorem base64DecodeVals_length_le (n : Nat) :
    ∀ vs : List Nat, vs.length ≤ n →
      (base64DecodeVals vs).length ≤ 3 * (vs.length / 4) + 2 := by
  induction n with
  | zero =>
    intro vs h
    have hvs : vs = [] := List.length_eq_zero.mp (Nat.le_zero.mp h)
    subst hvs
    simp [base64DecodeVals]
  | succ n ih =>
    intro vs h
    match vs with
    | [] => simp [base64DecodeVals]
    | [a] => simp [base64DecodeVals]
    | [a, b] => simp [base64DecodeVals]
    | [a, b, c] => simp [base64DecodeVals]
    | a :: b :: c :: d :: rest =>
      rw [base64DecodeVals]
      have hr : rest.length ≤ n := by
        simp only [List.length_cons] at h
        omega
      have hrec := ih rest hr
      simp only [List.length_cons]
      have h4 : (rest.length + 1 + 1 + 1 + 1) / 4 = rest.length / 4 + 1 := by
        omega
      rw [h4]
      omega

theorem bufferFromBase64_length_le (s : String) :
    (bufferFromBase64 s).length ≤ 3 * (s.length / 4) + 2 := by
  unfold bufferFromBase64
  have hf : (s.data.filterMap b64Val).length ≤ s.data.length :=
    List.length_filterMap_le b64Val s.data
  have hd := base64DecodeVals_length_le (s.data.filterMap b64Val).length
    (s.data.filterMap b64Val) (Nat.le_refl _)
  have : (s.data.filterMap b64Val).length / 4 ≤ s.data.length / 4 :=
    Nat.div_le_div_right hf
  have hlen : s.length = s.data.length := rfl
  omega

/-- Claim C1 core fact: the DEK recovered by `decryptSecret` — the UTF-8
rendering of the raw 32 DEK bytes, re-decoded as base64 — has at most 26
bytes, hence is never a valid AES-256 key. -/
theorem recoveredDEK_too_short (dek : Bytes) (h : dek.length = 32) :
    (bufferFromBase64 (utf8DecodeStr dek)).length < 32 := by
  have h1 : (utf8DecodeStr dek).length ≤ 32 := by
    have := utf8Decode_length_le dek.length dek (Nat.le_refl _)
    have hlen : (utf8DecodeStr dek).length = (utf8Decode dek).length := rfl
    omega
  have h2 := bufferFromBase64_length_le (utf8DecodeStr dek)
  omega

/-- Claim C1: decrypting the output of `encryptSecret` always fails.  The
sealed DEK unseals to the raw 32 random bytes rendered as a UTF-8 string;
`Buffer.from(dekString, 'base64')` then reinterprets that text as base64,
producing at most 26 bytes, so `createDecipheriv` rejects the key and the
generic failure is thrown — the round trip never returns the plaintext. -/
theorem decryptSecret_encryptSecret_fails (masterKey dek ivV ivD : Bytes)
    (secretValue : String) (hmk : masterKey.length = 32) (hdek : dek.length = 32) :
    decryptSecret masterKey (encryptSecret masterKey secretValue dek ivV ivD) =
      .error "Failed to decrypt secret" := by
  have h1 : decryptWithKey masterKey (encryptWithKey masterKey dek ivD) =
      .ok (utf8DecodeStr dek) := by
    simp [decryptWithKey, encryptWithKey, hmk]
  have hne : (bufferFromBase64 (utf8DecodeStr dek)).length ≠ 32 := by
    have := recoveredDEK_too_short dek hdek
    omega
  have h2 : decryptWithKey (bufferFromBase64 (utf8DecodeStr dek))
      (encryptWithKey dek (utf8Encode secretValue) ivV) = .error "Invalid key length" := by
    unfold decryptWithKey
    rw [if_pos hne]
  simp [decryptSecret, encryptSecret, h1, h2]

/-- Witness for claim C1 at a concrete input: a 32-byte master key, the
all-zero 32-byte DEK and plaintext `"x"`. -/
theorem decryptSecret_encryptSecret_fails_witness :
    (List.replicate 32 1 : Bytes).length = 32 ∧
    (List.replicate 32 0 : Bytes).length = 32 ∧
    decryptSecret (List.replicate 32 1)
      (encryptSecret (List.replicate 32 1) "x" (List.replicate 32 0) [] []) =
      .error "Failed to decrypt secret" :=
  ⟨by decide, by decide,
    decryptSecret_encryptSecret_fails (List.replicate 32 1) (List.replicate 32 0)
      [] [] "x" (by decide) (by decide)⟩

/-! ## The audit hash-chain ledger (`auditService.js`)

`JSON.stringify` of the event object is modelled field by field: an
`undefined` field is omitted, a `null` field renders as `null`.  SHA-256 of
the external `crypto` library is modelled as an ideal collision-free digest
carrying its preimage behind a tag. -/

/-- A JavaScript value in a serialized field position. -/
inductive JField where
  | undef : JField
  | jnull : JField
  | jstr : String → JField
  | jnum : Nat → JField
deriving DecidableEq

/-- One hex digit. -/
def hexDigit (n : Nat) : Char :=
  if n < 10 then Char.ofNat (48 + n) else Char.ofNat (87 + n)

/-- Model of `JSON.stringify` escaping of one character inside a string literal. -/
def jsonEscapeChar (c : Char) : String :=
  if c = Char.ofNat 34 then "\\\""
  else if c = Char.ofNat 92 then "\\\\"
  else if c = Char.ofNat 8 then "\\b"
  else if c = Char.ofNat 9 then "\\t"
  else if c = Char.ofNat 10 then "\\n"
  else if c = Char.ofNat 12 then "\\f"
  else if c = Char.ofNat 13 then "\\r"
  else if c.toNat < 32 then
    "\\u00" ++ String.singleton (hexDigit (c.toNat / 16)) ++
      String.singleton (hexDigit (c.toNat % 16))
  else String.singleton c

/-- Model of `JSON.stringify` of a string value. -/
def jsonQuote (s : String) : String :=
  "\"" ++ String.join (s.data.map jsonEscapeChar) ++ "\""

/-- Render one key/value pair, `none` when the value is `undefined`. -/
def renderJField (kv : String × JField) : Option String :=
  match kv.2 with
  | .undef => none
  | .jnull => some (jsonQuote kv.1 ++ ":null")
  | .jstr s => some (jsonQuote kv.1 ++ ":" ++ jsonQuote s)
  | .jnum n => some (jsonQuote kv.1 ++ ":" ++ toString n)

/-- Model of `JSON.stringify` of an object literal with the given fields in order. -/
def jsonObj (fields : List (String × JField)) : String :=
  "\x7b" ++ String.intercalate "," (fields.filterMap renderJField) ++ "\x7d"

/-- An `undefined`-able string as a JSON field. -/
def jstrOpt : Option String → JField
  | none => .undef
  | some s => .jstr s

/-- An `undefined`-able number as a JSON field. -/
def jnumOpt : Option Nat → JField
  | none => .undef
  | some n => .jnum n

/-- A `null`-able string column as a JSON field. -/
def jstrNull : Option String → JField
  | none => .jnull
  | some s => .jstr s

/-- A `null`-able numeric column as a JSON field. -/
def jnumNull : Option Nat → JField
  | none => .jnull
  | some n => .jnum n

/-- Ideal model of the SHA-256 hex digest: collision-free, represented by
the tagged preimage. -/
def sha256 (s : String) : String := "sha256:" ++ s

/-- Model of `generateHash(data, previousHash)` = SHA-256 of `previousHash + data`. -/
def generateHash (data : String) (previousHash : String) : String :=
  sha256 (previousHash ++ data)

/-- The event argument of `auditLog`; `none` models an absent (`undefined`)
property of the JS event object. -/
structure AuditEvent where
  userId : Option Nat
  username : Option String
  action : String
  resourceType : Option String
  resourcePath : Option String
  result : String
  reason : Option String
  ipAddress : Option String
  userAgent : Option String
  requestId : Option String
deriving DecidableEq

/-- A persisted `audit_logs` row (the columns read back by the service;
`timestamp` is the DB-assigned `CURRENT_TIMESTAMP` rendered as by
`toISOString()`). -/
structure AuditRow where
  id : Nat
  userId : Option Nat
  username : String
  action : String
  resourceType : Option String
  resourcePath : Option String
  result : String
  reason : Option String
  ipAddress : Option String
  userAgent : Option String
  requestId : Option String
  timestamp : String
  previousHash : String
  currentHash : String
deriving DecidableEq

/-- The append-only audit store (`id` is the SERIAL column, starting at 1;
rows are kept in insertion = id order). -/
structure Ledger where
  rows : List AuditRow
  nextId : Nat
deriving DecidableEq

/-- The empty ledger. -/
def emptyLedger : Ledger := { rows := [], nextId := 1 }

/-- Model of `SELECT current_hash FROM audit_logs ORDER BY id DESC LIMIT 1`. -/
def getPreviousHash (st : Ledger) : String :=
  match st.rows.getLast? with
  | some r => r.currentHash
  | none => ""

/-- The `eventData` string hashed by `auditLog`: the raw event fields plus
the JS-clock timestamp `new Date().toISOString()` (argument `jsTime`). -/
def appendEventData (e : AuditEvent) (jsTime : String) : String :=
  jsonObj [("userId", jnumOpt e.userId), ("username", jstrOpt e.username),
    ("action", .jstr e.action), ("resourceType", jstrOpt e.resourceType),
    ("resourcePath", jstrOpt e.resourcePath), ("result", .jstr e.result),
    ("timestamp", .jstr jsTime)]

/-- JavaScript `x || null` for a numeric field: `0` is falsy. -/
def jsOrNullNat : Option Nat → Option Nat
  | some n => if n = 0 then none else some n
  | none => none

/-- JavaScript `x || d` for a string field: `""` is falsy. -/
def jsOrStr (x : Option String) (d : String) : String :=
  match x with
  | some s => if s = "" then d else s
  | none => d

/-- JavaScript `x || null` for a string field: `""` is falsy. -/
def jsOrNullStr : Option String → Option String
  | some s => if s = "" then none else some s
  | none => none

/-- Model of `auditLog(event)` (the successful path): read the previous hash, hash
the serialized event with the JS clock time `jsTime`, and insert the row —
whose `timestamp` column is the DB-assigned `dbTime`, not `jsTime`. -/
def auditLog (st : Ledger) (e : AuditEvent) (jsTime dbTime : String) : Ledger :=
  let previousHash := getPreviousHash st
  let eventData := appendEventData e jsTime
  let currentHash := generateHash eventData previousHash
  { rows := st.rows ++ [{
      id := st.nextId,
      userId := jsOrNullNat e.userId,
      username := jsOrStr e.username "system",
      action := e.action,
      resourceType := jsOrNullStr e.resourceType,
      resourcePath := jsOrNullStr e.resourcePath,
      result := e.result,
      reason := jsOrNullStr e.reason,
      ipAddress := jsOrNullStr e.ipAddress,
      userAgent := jsOrNullStr e.userAgent,
      requestId := jsOrNullStr e.requestId,
      timestamp := dbTime,
      previousHash := previousHash,
      currentHash := currentHash }],
    nextId := st.nextId + 1 }

/-- One append request: the event together with the JS clock reading used
for hashing and the DB clock reading stored in the row. -/
structure AppendInput where
  event : AuditEvent
  jsTime : String
  dbTime : String
deriving DecidableEq

/-- A sequence of successful `auditLog` appends. -/
def appendEvents (st : Ledger) (evs : List AppendInput) : Ledger :=
  evs.foldl (fun s i => auditLog s i.event i.jsTime i.dbTime) st

/-- The `eventData` recomputed by `verifyAuditChain` from the stored row:
identical field list, but values come from the persisted columns — in
particular the DB-assigned `timestamp`. -/
def rowEventData (r : AuditRow) : String :=
  jsonObj [("userId", jnumNull r.userId), ("username", .jstr r.username),
    ("action", .jstr r.action), ("resourceType", jstrNull r.resourceType),
    ("resourcePath", jstrNull r.resourcePath), ("result", .jstr r.result),
    ("timestamp", .jstr r.timestamp)]

/-- The result object of `verifyAuditChain`. -/
structure VerifyResult where
  valid : Bool
  brokenAt : Option Nat
  message : String
deriving DecidableEq

/-- The verification loop: `expected` is the running expected previous
hash; the next expected value is the stored `current_hash`. -/
def verifyLoop (expected : String) (logs : List AuditRow) : Option (Nat × String) :=
  match logs with
  | [] => none
  | log :: rest =>
    if log.previousHash ≠ expected then
      some (log.id, "Chain broken at log ID " ++ toString log.id)
    else if log.currentHash ≠ generateHash (rowEventData log) log.previousHash then
      some (log.id, "Hash mismatch at log ID " ++ toString log.id)
    else verifyLoop log.currentHash rest

/-- Model of `verifyAuditChain(limit)`: replay the first `limit` rows in id order. -/
def verifyAuditChain (st : Ledger) (limit : Nat) : VerifyResult :=
  let logs := st.rows.take limit
  match verifyLoop "" logs with
  | some p => { valid := false, brokenAt := some p.1, message := p.2 }
  | none =>
    { valid := true, brokenAt := none,
      message := "Verified " ++ toString logs.length ++ " audit log entries" }

/-- The concrete event used to exhibit the verification defect. -/
def c2Event : AuditEvent :=
  { userId := some 1, username := some "alice", action := "secret_create",
    resourceType := some "secret", resourcePath := some "db/pw",
    result := "success", reason := none, ipAddress := none,
    userAgent := none, requestId := none }

set_option maxRecDepth 4000 in
/-- Claim C2: appending one untampered event and verifying fails.  The hash
stored by `auditLog` covers the JS clock reading (`.000Z`), but the row's
`timestamp` column is the DB clock's `CURRENT_TIMESTAMP` (`.042Z`), which is
what `verifyAuditChain` recomputes over — so the untampered single-entry
chain is reported broken with a hash mismatch at row 1. -/
theorem verifyAuditChain_rejects_untampered_append :
    verifyAuditChain
      (auditLog emptyLedger c2Event
        "2025-01-01T00:00:00.000Z" "2025-01-01T00:00:00.042Z") 1 =
    { valid := false, brokenAt := some 1, message := "Hash mismatch at log ID 1" } := by
  decide

/-- The hash chain predicate: starting from expected previous hash `prev`,
every row stores exactly the expected previous hash, and the expectation is
threaded through the stored current hashes.  `chainOk "" rows` states the
first row's `previousHash` is the empty sentinel and each later row's
`previousHash` equals the preceding row's `currentHash`. -/
def chainOk : String → List AuditRow → Prop
  | _, [] => True
  | prev, r :: rs => r.previousHash = prev ∧ chainOk r.currentHash rs

/-- Pairwise correspondence between persisted rows and the append inputs
producing them: each row's `currentHash` is the SHA-256 of its stored
`previousHash` concatenated with the canonical serialization of the event
performed at append time. -/
def hashesOk : List AuditRow → List AppendInput → Prop
  | [], [] => True
  | r :: rs, i :: is' =>
    r.currentHash = generateHash (appendEventData i.event i.jsTime) r.previousHash ∧
      hashesOk rs is'
  | _, _ => False

/-- The hash the chain ends with, starting from `prev`. -/
def lastHash (prev : String) : List AuditRow → String
  | [] => prev
  | r :: rs => lastHash r.currentHash rs

theorem getPreviousHash_eq_lastHash (st : Ledger) :
    getPreviousHash st = lastHash "" st.rows := by
  unfold getPreviousHash
  suffices h : ∀ (rows : List AuditRow) (prev : String),
      (match rows.getLast? with
        | some r => r.currentHash
        | none => prev) = lastHash prev rows by
    exact h st.rows ""
  intro rows
  induction rows with
  | nil => intro prev; simp [lastHash]
  | cons r rs ih =>
    intro prev
    rw [lastHash]
    rw [← ih r.currentHash]
    cases hrs : rs.getLast? with
    | some x => simp [List.getLast?_cons, hrs]
    | none =>
      have : rs = [] := by
        cases rs with
        | nil => rfl
        | cons a as => simp [List.getLast?] at hrs
      subst this
      simp

theorem chainOk_append (rows : List AuditRow) :
    ∀ (prev : String) (r : AuditRow), chainOk prev rows →
      r.previousHash = lastHash prev rows → chainOk prev (rows ++ [r]) := by
  induction rows with
  | nil =>
    intro prev r _ hlast
    simp only [List.nil_append]
    exact ⟨by simpa [lastHash] using hlast, trivial⟩
  | cons a as ih =>
    intro prev r hchain hlast
    obtain ⟨h1, h2⟩ := hchain
    refine ⟨h1, ?_⟩
    exact ih a.currentHash r h2 (by simpa [lastHash] using hlast)

theorem lastHash_append (rows : List AuditRow) :
    ∀ (prev : String) (r : AuditRow),
      lastHash prev (rows ++ [r]) = r.currentHash := by
  induction rows with
  | nil => intro prev r; simp [lastHash]
  | cons a as ih => intro prev r; simpa [lastHash] using ih a.currentHash r

theorem hashesOk_append (rows : List AuditRow) :
    ∀ (done : List AppendInput) (r : AuditRow) (i : AppendInput),
      hashesOk rows done →
      r.currentHash = generateHash (appendEventData i.event i.jsTime) r.previousHash →
      hashesOk (rows ++ [r]) (done ++ [i]) := by
  induction rows with
  | nil =>
    intro done r i hok hr
    cases done with
    | nil => exact ⟨hr, trivial⟩
    | cons d ds => exact absurd hok (by simp [hashesOk])
  | cons a as ih =>
    intro done r i hok hr
    cases done with
    | nil => exact absurd hok (by simp [hashesOk])
    | cons d ds =>
      obtain ⟨h1, h2⟩ := hok
      exact ⟨h1, ih ds r i h2 hr⟩

theorem appendEvents_invariant (evs : List AppendInput) :
    ∀ (st : Ledger) (done : List AppendInput),
      chainOk "" st.rows → hashesOk st.rows done →
      chainOk "" (appendEvents st evs).rows ∧
        hashesOk (appendEvents st evs).rows (done ++ evs) := by
  induction evs with
  | nil =>
    intro st done h1 h2
    simpa [appendEvents] using ⟨h1, h2⟩
  | cons i is' ih =>
    intro st done h1 h2
    have hstep : appendEvents st (i :: is') =
        appendEvents (auditLog st i.event i.jsTime i.dbTime) is' := by
      simp [appendEvents]
    rw [hstep]
    have hprev : (auditLog st i.event i.jsTime i.dbTime).rows.length =
        st.rows.length + 1 := by simp [auditLog]
    have hchain : chainOk "" (auditLog st i.event i.jsTime i.dbTime).rows := by
      unfold auditLog
      exact chainOk_append st.rows "" _ h1 (by
        simpa using (getPreviousHash_eq_lastHash st))
    have hhash : hashesOk (auditLog st i.event i.jsTime i.dbTime).rows (done ++ [i]) := by
      unfold auditLog
      exact hashesOk_append st.rows done _ i h2 rfl
    have := ih (auditLog st i.event i.jsTime i.dbTime) (done ++ [i]) hchain hhash
    simpa [List.append_assoc] using this

/-- Claim C4: for every sequence of successful appends to the empty ledger,
the resulting rows form an intact chain — the first row's `previousHash` is
the empty sentinel and each row's `previousHash` equals the previous row's
`currentHash` (`chainOk ""`) — and each row's `currentHash` equals the
SHA-256 of its `previousHash` concatenated with the canonical serialization
of the corresponding event as performed at append time (`hashesOk`). -/
theorem auditChain_invariant (evs : List AppendInput) :
    chainOk "" (appendEvents emptyLedger evs).rows ∧
      hashesOk (appendEvents emptyLedger evs).rows evs := by
  have := appendEvents_invariant evs emptyLedger []
    (by simp [emptyLedger, chainOk]) (by simp [emptyLedger, hashesOk])
  simpa using this

/-! ## The policy decision engine (`policyService.js`) -/

/-- The typed shape of the `conditions` jsonb column as probed by the
source (`ip_range`, already normalized to an array as by the source's
`Array.isArray` branch, and `time_of_day`). -/
structure Conditions where
  ipRange : Option (List String)
  timeOfDay : Option String
deriving DecidableEq

/-- A row of the `policies` table as selected by `evaluateAccess`. -/
structure Policy where
  id : Nat
  name : String
  effect : String
  roles : List String
  actions : List String
  resources : List String
  conditions : Conditions
  priority : Int
deriving DecidableEq

/-- Anchored glob matching: the source escapes every regex metacharacter
except `*`, which becomes `.*`, and tests the whole path — so every
non-`*` pattern character matches literally and `*` matches any run. -/
def globMatch : List Char → List Char → Bool
  | [], s => s.isEmpty
  | c :: ps, s =>
    if c = '*' then
      (List.range (s.length + 1)).any (fun k => globMatch ps (s.drop k))
    else
      match s with
      | [] => false
      | x :: xs => c = x && globMatch ps xs

/-- Model of `matchesPattern(pattern, path)`. -/
def matchesPattern (pattern : String) (path : String) : Bool :=
  globMatch pattern.data path.data

/-- The role pre-filter of the evaluation loop: some actor role is in the
policy's role set, or the policy's role set contains the wildcard. -/
def roleApplies (roles : List String) (p : Policy) : Bool :=
  roles.any fun role => p.roles.contains role || p.roles.contains "*"

/-- The action check of the evaluation loop. -/
def actionApplies (p : Policy) (action : String) : Bool :=
  p.actions.contains action || p.actions.contains "*"

/-- The resource check of the evaluation loop. -/
def resourceApplies (p : Policy) (resourcePath : String) : Bool :=
  p.resources.any fun pat => matchesPattern pat resourcePath

/-- JavaScript `String.prototype.split` with a one-character separator,
on character lists.  `split` never returns an empty array. -/
def jsSplitChars (sep : Char) : List Char → List (List Char)
  | [] => [[]]
  | c :: cs =>
    let r := jsSplitChars sep cs
    if c = sep then [] :: r
    else
      match r with
      | h :: t => (c :: h) :: t
      | [] => [[c]]

/-- JavaScript `s.split(sep)` for a one-character separator. -/
def jsSplit (s : String) (sep : Char) : List String :=
  (jsSplitChars sep s.data).map (fun l => ⟨l⟩)

/-- Model of `range.split('/')[0].split('.').slice(0, 3).join('.')`. -/
def cidrBase (range : String) : String :=
  String.intercalate "." (((jsSplit range '/').headD "" |> (jsSplit · '.')).take 3)

/-- The source's simplified per-range IP check. -/
def ipRangeMatches (range : String) (ip : String) : Bool :=
  if range.contains '/' then ip.startsWith (cidrBase range)
  else ip == range

/-- Model of `parseInt` restricted to the leading-digits case; `none` models `NaN`. -/
def jsParseInt (s : String) : Option Nat :=
  let ds := s.data.takeWhile (fun c => c.isDigit)
  if ds.isEmpty then none
  else some (ds.foldl (fun n c => n * 10 + (c.toNat - 48)) 0)

/-- JavaScript `h < x` where `x` may be `NaN` (any comparison with `NaN`
is false). -/
def ltHour (h : Nat) : Option Nat → Bool
  | some x => h < x
  | none => false

/-- JavaScript `h >= x` where `x` may be `NaN`. -/
def geHour (h : Nat) : Option Nat → Bool
  | some x => x ≤ h
  | none => false

/-- The conditional-constraint block of the evaluation loop: the IP check
runs first, then the time-of-day check runs regardless and its failure
message overwrites the IP one; a `time_of_day` value with no `-` makes the
destructured `endTime` undefined and the subsequent `.split` throw. -/
def checkConditions (p : Policy) (ipAddress : Option String) (hour : Nat) :
    Except String (Option String) :=
  let ipMsg : Option String :=
    match p.conditions.ipRange, ipAddress with
    | some ranges, some ip =>
      if ranges.any (fun range => ipRangeMatches range ip) then none
      else some ("IP address " ++ ip ++ " not in allowed ranges")
    | _, _ => none
  match p.conditions.timeOfDay with
  | none => .ok ipMsg
  | some tod =>
    match jsSplit tod '-' with
    | startTime :: endTime :: _ =>
      let startHour := jsParseInt ((jsSplit startTime ':').headD "")
      let endHour := jsParseInt ((jsSplit endTime ':').headD "")
      if ltHour hour startHour || geHour hour endHour then
        .ok (some ("Access only allowed between " ++ tod ++ " UTC"))
      else .ok ipMsg
    | _ => .error "TypeError: Cannot read properties of undefined"

/-- One entry of the `evaluatedPolicies` trace; `reason` is present on
non-matching entries, `effect` on matching ones. -/
structure TraceEntry where
  policyId : Nat
  policyName : String
  matched : Bool
  reason : Option String
  effect : Option String
deriving DecidableEq

/-- The result object of `evaluateAccess`. -/
structure Decision where
  allowed : Bool
  reason : String
  policies : List TraceEntry
  suggestion : Option String
deriving DecidableEq

/-- The argument object of `evaluateAccess`; `timestamp` is optional and
defaults to the ambient clock. -/
structure EvalContext where
  roles : List String
  action : String
  resourcePath : String
  ipAddress : Option String
  timestamp : Option Nat
deriving DecidableEq

/-- Model of `Date.prototype.getUTCHours` on an epoch-milliseconds value. -/
def getUTCHours (t : Nat) : Nat := t / 3600000 % 24

/-- The policy loop of `evaluateAccess`: returns the fully-matched
(`applicablePolicies`) and traced (`evaluatedPolicies`) lists, or the
exception thrown while probing a malformed condition.  A policy rejected
by the role pre-filter is skipped with `continue` before any trace entry
is recorded. -/
def evalPolicies (ctx : EvalContext) (hour : Nat) :
    List Policy → Except String (List Policy × List TraceEntry)
  | [] => .ok ([], [])
  | p :: ps =>
    if !(roleApplies ctx.roles p) then evalPolicies ctx hour ps
    else if !(actionApplies p ctx.action) then
      match evalPolicies ctx hour ps with
      | .error e => .error e
      | .ok (aps, eps) =>
        .ok (aps, ⟨p.id, p.name, false,
          some ("Action " ++ quoteCh ++ ctx.action ++ quoteCh ++
            " not in policy actions"), none⟩ :: eps)
    else if !(resourceApplies p ctx.resourcePath) then
      match evalPolicies ctx hour ps with
      | .error e => .error e
      | .ok (aps, eps) =>
        .ok (aps, ⟨p.id, p.name, false,
          some ("Resource " ++ quoteCh ++ ctx.resourcePath ++ quoteCh ++
            " does not match policy patterns"), none⟩ :: eps)
    else
      match checkConditions p ctx.ipAddress hour with
      | .error e => .error e
      | .ok (some msg) =>
        match evalPolicies ctx hour ps with
        | .error e => .error e
        | .ok (aps, eps) =>
          .ok (aps, ⟨p.id, p.name, false, some msg, none⟩ :: eps)
      | .ok none =>
        match evalPolicies ctx hour ps with
        | .error e => .error e
        | .ok (aps, eps) =>
          .ok (p :: aps, ⟨p.id, p.name, true, none, some p.effect⟩ :: eps)

/-- Model of `evaluateAccess(context)`: `policies` is the active-policy snapshot in
the query's `(priority DESC, id ASC)` order; `now` is the ambient clock
read by the defaulted `timestamp = new Date()`. -/
def evaluateAccess (now : Nat) (policies : List Policy) (ctx : EvalContext) :
    Except String Decision :=
  if ctx.roles.isEmpty then
    .ok ⟨false, "No roles assigned to user", [], none⟩
  else
    let hour := getUTCHours (ctx.timestamp.getD now)
    match evalPolicies ctx hour policies with
    | .error e => .error e
    | .ok (aps, eps) =>
      match aps.find? (fun p => p.effect == "deny") with
      | some dp =>
        .ok ⟨false,
          "Explicitly denied by policy " ++ quoteCh ++ dp.name ++ quoteCh,
          eps, none⟩
      | none =>
        match aps.find? (fun p => p.effect == "allow") with
        | some ap =>
          .ok ⟨true,
            "Granted by policy " ++ quoteCh ++ ap.name ++ quoteCh,
            eps, none⟩
        | none =>
          .ok ⟨false,
            "No policy grants " ++ quoteCh ++ ctx.action ++ quoteCh ++
              " on " ++ quoteCh ++ ctx.resourcePath ++ quoteCh,
            eps,
            some "Request access via security team or check your role assignments"⟩

/-- Claim C3: among the fully-matched policies computed by the evaluation
loop, any `deny` forces a denied decision regardless of every priority; no
`deny` plus some `allow` yields an allowed decision; an empty fully-matched
set yields the default denial carrying a suggestion message. -/
theorem evaluateAccess_deny_overrides (now : Nat) (policies : List Policy)
    (ctx : EvalContext) (aps : List Policy) (eps : List TraceEntry)
    (hroles : ctx.roles ≠ [])
    (h : evalPolicies ctx (getUTCHours (ctx.timestamp.getD now)) policies =
      .ok (aps, eps)) :
    ∃ d : Decision, evaluateAccess now policies ctx = .ok d ∧
      ((∃ p ∈ aps, p.effect = "deny") → d.allowed = false) ∧
      ((∀ p ∈ aps, p.effect ≠ "deny") → (∃ p ∈ aps, p.effect = "allow") →
        d.allowed = true) ∧
      (aps = [] → d.allowed = false ∧ d.suggestion.isSome = true) := by
  have hE : ctx.roles.isEmpty = false := by
    cases hr : ctx.roles with
    | nil => exact absurd hr hroles
    | cons a l => rfl
  cases hfd : aps.find? (fun p => p.effect == "deny") with
  | some dp =>
    refine ⟨⟨false,
      "Explicitly denied by policy " ++ quoteCh ++ dp.name ++ quoteCh,
      eps, none⟩, ?_, fun _ => rfl, ?_, ?_⟩
    · simp [evaluateAccess, hE, h, hfd]
    · intro hall _
      exfalso
      have hmem := List.mem_of_find?_eq_some hfd
      have hdp := List.find?_some hfd
      exact hall dp hmem (by simpa using hdp)
    · intro hnil
      subst hnil
      simp [List.find?] at hfd
  | none =>
    cases hfa : aps.find? (fun p => p.effect == "allow") with
    | some ap =>
      refine ⟨⟨true,
        "Granted by policy " ++ quoteCh ++ ap.name ++ quoteCh,
        eps, none⟩, ?_, ?_, fun _ _ => rfl, ?_⟩
      · simp [evaluateAccess, hE, h, hfd, hfa]
      · rintro ⟨p, hp, hpd⟩
        exfalso
        have := List.find?_eq_none.mp hfd p hp
        simp [hpd] at this
      · intro hnil
        subst hnil
        simp [List.find?] at hfa
    | none =>
      refine ⟨⟨false,
        "No policy grants " ++ quoteCh ++ ctx.action ++ quoteCh ++
          " on " ++ quoteCh ++ ctx.resourcePath ++ quoteCh,
        eps,
        some "Request access via security team or check your role assignments"⟩,
        ?_, fun _ => rfl, ?_, fun _ => ⟨rfl, rfl⟩⟩
      · simp [evaluateAccess, hE, h, hfd, hfa]
      · rintro _ ⟨p, hp, hpa⟩
        exfalso
        have := List.find?_eq_none.mp hfa p hp
        simp [hpa] at this

/-- A fully-matching high-priority allow policy for the C3 witness. -/
def cAllowPolicy : Policy :=
  { id := 1, name := "allow-everything", effect := "allow", roles := ["dev"],
    actions := ["delete"], resources := ["prod/*"],
    conditions := { ipRange := none, timeOfDay := none }, priority := 100 }

/-- A fully-matching low-priority deny policy for the C3 witness. -/
def cDenyPolicy : Policy :=
  { id := 2, name := "deny-prod-delete", effect := "deny", roles := ["*"],
    actions := ["delete"], resources := ["prod/*"],
    conditions := { ipRange := none, timeOfDay := none }, priority := 1 }

/-- The request context for the C3 witness. -/
def cCtx : EvalContext :=
  { roles := ["dev"], action := "delete", resourcePath := "prod/db",
    ipAddress := none, timestamp := some 0 }

/-- The trace produced for the C3 witness snapshot. -/
def cTrace : List TraceEntry :=
  [{ policyId := 1, policyName := "allow-everything", matched := true,
     reason := none, effect := some "allow" },
   { policyId := 2, policyName := "deny-prod-delete", matched := true,
     reason := none, effect := some "deny" }]

/-- Witness for claim C3: with a priority-100 allow and a priority-1 deny
both fully matching, the decision is Deny. -/
theorem evaluateAccess_deny_overrides_witness :
    cCtx.roles ≠ [] ∧
    ∃ d : Decision, evaluateAccess 0 [cAllowPolicy, cDenyPolicy] cCtx = .ok d ∧
      ((∃ p ∈ [cAllowPolicy, cDenyPolicy], p.effect = "deny") → d.allowed = false) ∧
      ((∀ p ∈ [cAllowPolicy, cDenyPolicy], p.effect ≠ "deny") →
        (∃ p ∈ [cAllowPolicy, cDenyPolicy], p.effect = "allow") → d.allowed = true) ∧
      (([cAllowPolicy, cDenyPolicy] : List Policy) = [] →
        d.allowed = false ∧ d.suggestion.isSome = true) :=
  ⟨by decide,
    evaluateAccess_deny_overrides 0 [cAllowPolicy, cDenyPolicy] cCtx
      [cAllowPolicy, cDenyPolicy] cTrace (by decide) (by decide)⟩

/-- An active policy whose role set misses the actor's roles (C7). -/
def c7Policy : Policy :=
  { id := 7, name := "admins-read", effect := "allow", roles := ["admin"],
    actions := ["read"], resources := ["*"],
    conditions := { ipRange := none, timeOfDay := none }, priority := 0 }

/-- The request context for the C7 counterexample. -/
def c7Ctx : EvalContext :=
  { roles := ["developer"], action := "read", resourcePath := "dev/x",
    ipAddress := none, timestamp := some 0 }

/-- Counterexample to claim C7: one active policy is considered, but since
none of the actor's roles appear in its role set it is skipped by
`continue` before any trace entry is pushed — the returned trace is empty
rather than containing a `(policyId, matched, reason)` entry for it. -/
theorem evaluateAccess_trace_omits_role_mismatch :
    evaluateAccess 0 [c7Policy] c7Ctx =
      .ok ⟨false,
        "No policy grants " ++ quoteCh ++ "read" ++ quoteCh ++
          " on " ++ quoteCh ++ "dev/x" ++ quoteCh,
        [],
        some "Request access via security team or check your role assignments"⟩ := by
  decide

/-- Claim C7 (amended): the trace contains exactly one entry, in order, for
every active policy that passes the role pre-filter — whether it matched or
not — and no entry for a policy rejected because none of the actor's roles
appear in its role set. -/
theorem evalPolicies_trace_covers_role_applicable (ctx : EvalContext) (hour : Nat) :
    ∀ (policies : List Policy) (aps : List Policy) (eps : List TraceEntry),
      evalPolicies ctx hour policies = .ok (aps, eps) →
      eps.map (fun t => t.policyId) =
        (policies.filter (fun p => roleApplies ctx.roles p)).map (fun p => p.id) := by
  intro policies
  induction policies with
  | nil =>
    intro aps eps h
    simp only [evalPolicies, Except.ok.injEq, Prod.mk.injEq] at h
    obtain ⟨h1, h2⟩ := h
    subst h1; subst h2
    simp
  | cons p ps ih =>
    intro aps eps h
    rw [evalPolicies] at h
    cases hrole : roleApplies ctx.roles p with
    | false =>
      simp only [hrole, Bool.not_false, if_true] at h
      simpa [List.filter_cons, hrole] using ih aps eps h
    | true =>
      simp only [hrole, Bool.not_true, Bool.false_eq_true, if_false] at h
      rw [List.filter_cons_of_pos (by simp [hrole])]
      cases hact : actionApplies p ctx.action with
      | false =>
        simp only [hact, Bool.not_false, if_true] at h
        cases hrec : evalPolicies ctx hour ps with
        | error e => rw [hrec] at h; exact absurd h (by simp)
        | ok pr =>
          obtain ⟨a, e⟩ := pr
          rw [hrec] at h
          simp only [Except.ok.injEq, Prod.mk.injEq] at h
          obtain ⟨h1, h2⟩ := h
          subst h1
          rw [← h2]
          simpa using ih a e hrec
      | true =>
        simp only [hact, Bool.not_true, Bool.false_eq_true, if_false] at h
        cases hres : resourceApplies p ctx.resourcePath with
        | false =>
          simp only [hres, Bool.not_false, if_true] at h
          cases hrec : evalPolicies ctx hour ps with
          | error e => rw [hrec] at h; exact absurd h (by simp)
          | ok pr =>
            obtain ⟨a, e⟩ := pr
            rw [hrec] at h
            simp only [Except.ok.injEq, Prod.mk.injEq] at h
            obtain ⟨h1, h2⟩ := h
            subst h1
            rw [← h2]
            simpa using ih a e hrec
        | true =>
          simp only [hres, Bool.not_true, Bool.false_eq_true, if_false] at h
          cases hcond : checkConditions p ctx.ipAddress hour with
          | error e => rw [hcond] at h; exact absurd h (by simp)
          | ok msg =>
            rw [hcond] at h
            cases msg with
            | some m =>
              cases hrec : evalPolicies ctx hour ps with
              | error e => rw [hrec] at h; exact absurd h (by simp)
              | ok pr =>
                obtain ⟨a, e⟩ := pr
                rw [hrec] at h
                simp only [Except.ok.injEq, Prod.mk.injEq] at h
                obtain ⟨h1, h2⟩ := h
                subst h1
                rw [← h2]
                simpa using ih a e hrec
            | none =>
              cases hrec : evalPolicies ctx hour ps with
              | error e => rw [hrec] at h; exact absurd h (by simp)
              | ok pr =>
                obtain ⟨a, e⟩ := pr
                rw [hrec] at h
                simp only [Except.ok.injEq, Prod.mk.injEq] at h
                obtain ⟨h1, h2⟩ := h
                rw [← h2]
                simpa using ih a e hrec

/-- A role-matching policy rejected on its action, for the C7 witness. -/
def c7bPolicy : Policy :=
  { id := 8, name := "developer-write", effect := "allow", roles := ["developer"],
    actions := ["write"], resources := ["*"],
    conditions := { ipRange := none, timeOfDay := none }, priority := 0 }

/-- The single trace entry produced in the C7 witness. -/
def c7Trace : TraceEntry :=
  ⟨8, "developer-write", false,
    some ("Action " ++ quoteCh ++ "read" ++ quoteCh ++ " not in policy actions"),
    none⟩

/-- Witness for the amended claim C7: with one role-mismatched policy and
one role-matching (but action-rejected) policy, the trace ids are exactly
the role-matching policy's id. -/
theorem evalPolicies_trace_covers_role_applicable_witness :
    evalPolicies c7Ctx 0 [c7Policy, c7bPolicy] = .ok ([], [c7Trace]) ∧
    [c7Trace].map (fun t => t.policyId) =
      ([c7Policy, c7bPolicy].filter (fun p => roleApplies c7Ctx.roles p)).map
        (fun p => p.id) :=
  ⟨by decide,
    evalPolicies_trace_covers_role_applicable c7Ctx 0 [c7Policy, c7bPolicy] []
      [c7Trace] (by decide)⟩

/-- A policy with a UTC business-hours condition (C8). -/
def c8Policy : Policy :=
  { id := 3, name := "business-hours", effect := "allow", roles := ["*"],
    actions := ["*"], resources := ["*"],
    conditions := { ipRange := none, timeOfDay := some "09:00-17:00" },
    priority := 0 }

/-- A request context that supplies no timestamp (C8). -/
def c8Ctx : EvalContext :=
  { roles := ["dev"], action := "read", resourcePath := "dev/x",
    ipAddress := none, timestamp := none }

/-- Counterexample to claim C8: with no timestamp in the context the source
defaults it to `new Date()`, so two calls with an identical snapshot and
identical inputs — made when the ambient clock reads 10:00 versus 20:00
UTC — return different decisions. -/
theorem evaluateAccess_depends_on_clock :
    evaluateAccess 36000000 [c8Policy] c8Ctx ≠
      evaluateAccess 72000000 [c8Policy] c8Ctx := by
  decide

/-- Claim C8 (amended): with a timestamp supplied in the context,
`evaluateAccess` is a pure function of the policy snapshot and the inputs —
the ambient clock cannot influence the decision or the trace. -/
theorem evaluateAccess_deterministic_with_timestamp (policies : List Policy)
    (ctx : EvalContext) (t : Nat) (h : ctx.timestamp = some t) (now1 now2 : Nat) :
    evaluateAccess now1 policies ctx = evaluateAccess now2 policies ctx := by
  unfold evaluateAccess
  simp [h]

/-- Witness for the amended claim C8 at a concrete snapshot and context. -/
theorem evaluateAccess_deterministic_with_timestamp_witness :
    cCtx.timestamp = some 0 ∧
    evaluateAccess 111 [c8Policy] cCtx = evaluateAccess 222 [c8Policy] cCtx :=
  ⟨rfl, evaluateAccess_deterministic_with_timestamp [c8Policy] cCtx 0 rfl 111 222⟩

/-! ## The secret lifecycle manager (`secretService.js`) -/

/-- A row of the `secrets` table (`version` defaults to 1 and `is_active`
to true on insert). -/
structure SecretRow where
  id : Nat
  path : String
  encryptedValue : SealedBox
  encryptedDEK : SealedBox
  description : Option String
  tags : List String
  version : Nat
  isActive : Bool
  createdBy : Nat
deriving DecidableEq

/-- A row of the `secret_versions` archive table. -/
structure VersionRow where
  secretId : Nat
  version : Nat
  encryptedValue : SealedBox
  encryptedDEK : SealedBox
  createdBy : Nat
deriving DecidableEq

/-- One audit event emitted by a lifecycle operation via `auditLog` (the
fields the lifecycle service passes; hashing and persistence of the ledger
itself are modelled separately above). -/
structure AuditCall where
  userId : Option Nat
  username : Option String
  action : String
  resourcePath : String
  result : String
  ipAddress : Option String
deriving DecidableEq

/-- The relational store touched by the lifecycle service. -/
structure VaultState where
  secrets : List SecretRow
  versions : List VersionRow
  nextSecretId : Nat
  audit : List AuditCall
deriving DecidableEq

/-- Model of `createSecret(secretData)`: note the existence check
`SELECT id FROM secrets WHERE path = $1` has no `is_active` filter, so any
row at the path — active or soft-deleted — triggers the conflict. -/
def createSecret (st : VaultState) (path : String) (value : String)
    (description : Option String) (tags : List String) (createdBy : Nat)
    (masterKey dek ivV ivD : Bytes) : Except String VaultState :=
  if path = "" ∨ value = "" then .error "Path and value are required"
  else if 0 < (st.secrets.filter (fun r => r.path == path)).length then
    .error ("Secret with path " ++ quoteCh ++ path ++ quoteCh ++ " already exists")
  else
    let pair := encryptSecret masterKey value dek ivV ivD
    .ok { st with
      secrets := st.secrets ++ [⟨st.nextSecretId, path, pair.encryptedValue,
        pair.encryptedDEK, description, tags, 1, true, createdBy⟩],
      nextSecretId := st.nextSecretId + 1,
      audit := st.audit ++ [⟨some createdBy, none, "secret_create", path, "success", none⟩] }

/-- Model of `getSecretMasked(path, userId)`: selects only
`path = $1 AND is_active = true`, decrypts, masks, audits. -/
def getSecretMasked (st : VaultState) (path : String) (userId : Nat)
    (masterKey : Bytes) : Except String (String × VaultState) :=
  match st.secrets.find? (fun r => r.path == path && r.isActive) with
  | none => .error ("Secret " ++ quoteCh ++ path ++ quoteCh ++ " not found")
  | some s =>
    match decryptSecret masterKey ⟨s.encryptedValue, s.encryptedDEK⟩ with
    | .error e => .error e
    | .ok plaintext =>
      .ok (maskSecret plaintext,
        { st with audit := st.audit ++
            [⟨some userId, none, "secret_read_masked", path, "success", none⟩] })

/-- Model of `getSecretRevealed(path, userId, username, ipAddress)`: selects only
active rows, decrypts and returns the plaintext, audits the reveal. -/
def getSecretRevealed (st : VaultState) (path : String) (userId : Nat)
    (username ipAddress : String) (masterKey : Bytes) :
    Except String (String × VaultState) :=
  match st.secrets.find? (fun r => r.path == path && r.isActive) with
  | none => .error ("Secret " ++ quoteCh ++ path ++ quoteCh ++ " not found")
  | some s =>
    match decryptSecret masterKey ⟨s.encryptedValue, s.encryptedDEK⟩ with
    | .error e => .error e
    | .ok plaintext =>
      .ok (plaintext,
        { st with audit := st.audit ++
            [⟨some userId, some username, "secret_read_reveal", path, "success",
              some ipAddress⟩] })

/-- Model of `updateSecret(path, updates, updatedBy)`: metadata only; the `UPDATE`
targets `path = $ AND is_active = true` and reports not-found when no row
matched.  A provided `description`/`tags` is `some`. -/
def updateSecret (st : VaultState) (path : String)
    (description : Option String) (tags : Option (List String)) (updatedBy : Nat) :
    Except String VaultState :=
  if description.isNone ∧ tags.isNone then .error "No fields to update"
  else if (st.secrets.find? (fun r => r.path == path && r.isActive)).isNone then
    .error ("Secret " ++ quoteCh ++ path ++ quoteCh ++ " not found")
  else
    .ok { st with
      secrets := st.secrets.map (fun r =>
        if r.path == path && r.isActive then
          { r with
            description := (match description with
              | some d => some d
              | none => r.description),
            tags := tags.getD r.tags }
        else r),
      audit := st.audit ++ [⟨some updatedBy, none, "secret_update", path, "success", none⟩] }

/-- Model of `rotateSecret(path, newValue, userId)`: the `BEGIN`/`COMMIT` block is
modelled by building the candidate state and returning it whole on commit;
a thrown error after `ROLLBACK` is the `.error` result, with the store kept
at the pre-transaction state.  `dbFail` injects an infrastructure failure
into statement 0 (`SELECT`), 1 (archive `INSERT`), 2 (`UPDATE`) or 3
(`COMMIT`). -/
def rotateSecret (st : VaultState) (path : String) (newValue : String) (userId : Nat)
    (masterKey dek ivV ivD : Bytes) (dbFail : Nat → Bool) : Except String VaultState :=
  if dbFail 0 then .error "database failure" else
  match st.secrets.find? (fun r => r.path == path && r.isActive) with
  | none => .error ("Secret " ++ quoteCh ++ path ++ quoteCh ++ " not found")
  | some cur =>
    if dbFail 1 then .error "database failure" else
    let pair := encryptSecret masterKey newValue dek ivV ivD
    if dbFail 2 then .error "database failure" else
    if dbFail 3 then .error "database failure" else
    .ok { st with
      secrets := st.secrets.map (fun r =>
        if r.id == cur.id then
          { r with
            encryptedValue := pair.encryptedValue,
            encryptedDEK := pair.encryptedDEK,
            version := cur.version + 1 }
        else r),
      versions := st.versions ++
        [⟨cur.id, cur.version, cur.encryptedValue, cur.encryptedDEK, userId⟩],
      audit := st.audit ++ [⟨some userId, none, "secret_rotate", path, "success", none⟩] }

/-- The store state observed after `rotateSecret` returns or throws: on a
thrown error the transaction was rolled back, so the store is unchanged. -/
def rotateSecretRun (st : VaultState) (path : String) (newValue : String) (userId : Nat)
    (masterKey dek ivV ivD : Bytes) (dbFail : Nat → Bool) : VaultState :=
  match rotateSecret st path newValue userId masterKey dek ivV ivD dbFail with
  | .ok st' => st'
  | .error _ => st

/-- Model of `deleteSecret(path, userId)`: soft delete of the active row at `path`;
not-found when no active row matched. -/
def deleteSecret (st : VaultState) (path : String) (userId : Nat) :
    Except String VaultState :=
  if (st.secrets.find? (fun r => r.path == path && r.isActive)).isNone then
    .error ("Secret " ++ quoteCh ++ path ++ quoteCh ++ " not found")
  else
    .ok { st with
      secrets := st.secrets.map (fun r =>
        if r.path == path && r.isActive then { r with isActive := false } else r),
      audit := st.audit ++ [⟨some userId, none, "secret_delete", path, "success", none⟩] }

/-! ## Claim C9: the masking contract -/

/-- Claim C9: `maskSecret` returns the fixed eight-bullet marker for the
empty input, and for non-empty input the first `min(8, len)` characters
followed by exactly `max(16, len - min(8, len))` bullet characters. -/
theorem maskSecret_spec (s : String) :
    (s = "" → maskSecret s = String.mk (List.replicate 8 '•')) ∧
    (s ≠ "" → maskSecret s =
      String.mk (s.data.take (min 8 s.length)) ++
        String.mk (List.replicate (max 16 (s.length - min 8 s.length)) '•')) := by
  constructor
  · intro h
    subst h
    rfl
  · intro h
    have hlen : ¬ s.length = 0 := by
      intro h0
      apply h
      have hnil : s.data = [] := List.length_eq_zero.mp h0
      cases s with
      | mk d =>
        simp only [String.data] at hnil
        subst hnil
        rfl
    rw [maskSecret, if_neg hlen]

/-- Witness for claim C9: the ten-character input `"abcdefghij"` reveals
its first eight characters and appends exactly sixteen bullets. -/
theorem maskSecret_spec_witness :
    ("abcdefghij" : String) ≠ "" ∧
    maskSecret "abcdefghij" =
      String.mk (("abcdefghij" : String).data.take (min 8 ("abcdefghij" : String).length)) ++
        String.mk (List.replicate
          (max 16 (("abcdefghij" : String).length - min 8 ("abcdefghij" : String).length)) '•') :=
  ⟨by decide, (maskSecret_spec "abcdefghij").2 (by decide)⟩

/-! ## Claim C5: create conflicts -/

/-- A soft-deleted (inactive) secret row at path `db/pw`. -/
def c5Inactive : SecretRow :=
  ⟨1, "db/pw", ⟨[], [], []⟩, ⟨[], [], []⟩, none, [], 1, false, 1⟩

/-- A store whose only row at `db/pw` is soft-deleted. -/
def c5State : VaultState := ⟨[c5Inactive], [], 2, []⟩

/-- Counterexample to claim C5: when only a soft-deleted, inactive secret
exists at the path, `createSecret` still fails with the conflict error —
its existence check `SELECT id FROM secrets WHERE path = $1` ignores the
active flag — whereas the claim requires the create to succeed. -/
theorem createSecret_conflicts_on_inactive :
    createSecret c5State "db/pw" "hunter2" none [] 1
      (List.replicate 32 1) (List.replicate 32 0) [] [] =
      .error ("Secret with path " ++ quoteCh ++ "db/pw" ++ quoteCh ++ " already exists") := by
  decide

/-- Claim C5 (amended): `createSecret` fails with the Conflict error exactly
when any secret row — active or soft-deleted — exists at the path; when no
row exists at the path it envelope-encrypts the value, persists it as
version 1 (active), and emits a `secret_create` audit event. -/
theorem createSecret_conflict_spec (st : VaultState) (path value : String)
    (description : Option String) (tags : List String) (createdBy : Nat)
    (masterKey dek ivV ivD : Bytes) (hpath : path ≠ "") (hvalue : value ≠ "") :
    ((∃ r ∈ st.secrets, r.path = path) →
      createSecret st path value description tags createdBy masterKey dek ivV ivD =
        .error ("Secret with path " ++ quoteCh ++ path ++ quoteCh ++ " already exists")) ∧
    ((∀ r ∈ st.secrets, r.path ≠ path) →
      createSecret st path value description tags createdBy masterKey dek ivV ivD =
        .ok { st with
          secrets := st.secrets ++ [⟨st.nextSecretId, path,
            (encryptSecret masterKey value dek ivV ivD).encryptedValue,
            (encryptSecret masterKey value dek ivV ivD).encryptedDEK,
            description, tags, 1, true, createdBy⟩],
          nextSecretId := st.nextSecretId + 1,
          audit := st.audit ++
            [⟨some createdBy, none, "secret_create", path, "success", none⟩] }) := by
  have hval : ¬ (path = "" ∨ value = "") := by
    rintro (h | h)
    · exact hpath h
    · exact hvalue h
  constructor
  · rintro ⟨r, hr, hrp⟩
    have hmem : r ∈ st.secrets.filter (fun r => r.path == path) :=
      List.mem_filter.mpr ⟨hr, by simp [hrp]⟩
    have hpos : 0 < (st.secrets.filter (fun r => r.path == path)).length :=
      List.length_pos.mpr (List.ne_nil_of_mem hmem)
    rw [createSecret, if_neg hval, if_pos hpos]
  · intro hall
    have hnil : st.secrets.filter (fun r => r.path == path) = [] := by
      rw [List.filter_eq_nil_iff]
      intro r hr
      simp [hall r hr]
    have hpos : ¬ 0 < (st.secrets.filter (fun r => r.path == path)).length := by
      rw [hnil]
      simp
    rw [createSecret, if_neg hval, if_neg hpos]

/-- Witness for the amended claim C5: creating at a fresh path in the empty
store succeeds with version 1 and a `secret_create` audit event. -/
theorem createSecret_conflict_spec_witness :
    ("db/pw" : String) ≠ "" ∧ ("hunter2" : String) ≠ "" ∧
    createSecret ⟨[], [], 1, []⟩ "db/pw" "hunter2" none [] 1
        (List.replicate 32 1) (List.replicate 32 0) [] [] =
      .ok ⟨[⟨1, "db/pw",
          (encryptSecret (List.replicate 32 1) "hunter2" (List.replicate 32 0) [] []).encryptedValue,
          (encryptSecret (List.replicate 32 1) "hunter2" (List.replicate 32 0) [] []).encryptedDEK,
          none, [], 1, true, 1⟩], [], 2,
        [⟨some 1, none, "secret_create", "db/pw", "success", none⟩]⟩ :=
  ⟨by decide, by decide,
    (createSecret_conflict_spec ⟨[], [], 1, []⟩ "db/pw" "hunter2" none [] 1
      (List.replicate 32 1) (List.replicate 32 0) [] [] (by decide) (by decide)).2
      (by decide)⟩

/-! ## Claim C6: rotation atomicity -/

/-- Claim C6: `rotateSecret` is all-or-nothing.  Either it throws — the
transaction was rolled back, so the observed store (`rotateSecretRun`) is
exactly the pre-call store — or it commits, and then the archive gains
exactly one `SecretVersion` row carrying the old sealed payload tagged with
the old version number, the live row's version becomes exactly the old
version plus one, every other row is unchanged, and a `secret_rotate` audit
event is emitted.  This holds for every injected infrastructure failure
`dbFail`, so a state with the archive row but not the live update (or vice
versa) is never observable. -/
theorem rotateSecret_atomic (st : VaultState) (path newValue : String) (userId : Nat)
    (masterKey dek ivV ivD : Bytes) (dbFail : Nat → Bool) :
    (rotateSecretRun st path newValue userId masterKey dek ivV ivD dbFail = st ∧
      ∃ e, rotateSecret st path newValue userId masterKey dek ivV ivD dbFail = .error e) ∨
    (∃ cur st',
      st.secrets.find? (fun r => r.path == path && r.isActive) = some cur ∧
      rotateSecret st path newValue userId masterKey dek ivV ivD dbFail = .ok st' ∧
      rotateSecretRun st path newValue userId masterKey dek ivV ivD dbFail = st' ∧
      st'.versions = st.versions ++
        [⟨cur.id, cur.version, cur.encryptedValue, cur.encryptedDEK, userId⟩] ∧
      st'.secrets = st.secrets.map (fun r =>
        if r.id == cur.id then
          { r with
            encryptedValue := (encryptSecret masterKey newValue dek ivV ivD).encryptedValue,
            encryptedDEK := (encryptSecret masterKey newValue dek ivV ivD).encryptedDEK,
            version := cur.version + 1 }
        else r) ∧
      (∀ r ∈ st'.secrets, r.id = cur.id → r.version = cur.version + 1) ∧
      st'.audit = st.audit ++
        [⟨some userId, none, "secret_rotate", path, "success", none⟩]) := by
  unfold rotateSecretRun rotateSecret
  cases h0 : dbFail 0 with
  | true => exact Or.inl ⟨rfl, _, rfl⟩
  | false =>
    cases hfind : st.secrets.find? (fun r => r.path == path && r.isActive) with
    | none => exact Or.inl ⟨rfl, _, rfl⟩
    | some cur =>
      cases h1 : dbFail 1 with
      | true => exact Or.inl ⟨rfl, _, rfl⟩
      | false =>
        cases h2 : dbFail 2 with
        | true => exact Or.inl ⟨rfl, _, rfl⟩
        | false =>
          cases h3 : dbFail 3 with
          | true => exact Or.inl ⟨rfl, _, rfl⟩
          | false =>
            refine Or.inr ⟨cur, _, rfl, rfl, rfl, rfl, rfl, ?_, rfl⟩
            intro r hr hid
            rw [List.mem_map] at hr
            obtain ⟨a, ha, rfl⟩ := hr
            cases hc : (a.id == cur.id) with
            | true => simp [hc]
            | false =>
              exfalso
              rw [hc] at hid
              simp only [if_false, Bool.false_eq_true] at hid
              have : a.id = cur.id := hid
              simp [this] at hc

/-! ## Claim C10: inactive rows are invisible to lifecycle operations -/

/-- Claim C10: every lifecycle operation targeting an existing secret
(masked read, revealed read, metadata update with at least one field,
rotate, delete) selects only rows with the active flag set: whenever every
row at the path is inactive (in particular for a soft-deleted or unknown
path), each operation fails with the not-found error — never decrypting or
returning the inactive secret's payload. -/
theorem lifecycle_notFound_on_inactive (st : VaultState) (path : String)
    (userId : Nat) (username ipAddress newValue d : String)
    (masterKey dek ivV ivD : Bytes)
    (h : ∀ r ∈ st.secrets, r.path = path → r.isActive = false) :
    getSecretMasked st path userId masterKey =
      .error ("Secret " ++ quoteCh ++ path ++ quoteCh ++ " not found") ∧
    getSecretRevealed st path userId username ipAddress masterKey =
      .error ("Secret " ++ quoteCh ++ path ++ quoteCh ++ " not found") ∧
    updateSecret st path (some d) none userId =
      .error ("Secret " ++ quoteCh ++ path ++ quoteCh ++ " not found") ∧
    rotateSecret st path newValue userId masterKey dek ivV ivD (fun _ => false) =
      .error ("Secret " ++ quoteCh ++ path ++ quoteCh ++ " not found") ∧
    deleteSecret st path userId =
      .error ("Secret " ++ quoteCh ++ path ++ quoteCh ++ " not found") := by
  have hfind : st.secrets.find? (fun r => r.path == path && r.isActive) = none := by
    rw [List.find?_eq_none]
    intro r hr
    simp only [Bool.and_eq_true, beq_iff_eq, not_and]
    intro hp
    rw [h r hr hp]
    simp
  refine ⟨?_, ?_, ?_, ?_, ?_⟩
  · rw [getSecretMasked, hfind]
  · rw [getSecretRevealed, hfind]
  · rw [updateSecret, if_neg (by simp), hfind]
    rfl
  · rw [rotateSecret, if_neg (by simp), hfind]
  · rw [deleteSecret, hfind]
    rfl

/-- Witness for claim C10 on the concrete store whose only row at `db/pw`
is soft-deleted. -/
theorem lifecycle_notFound_on_inactive_witness :
    (∀ r ∈ c5State.secrets, r.path = "db/pw" → r.isActive = false) ∧
    (getSecretMasked c5State "db/pw" 1 (List.replicate 32 1) =
      .error ("Secret " ++ quoteCh ++ "db/pw" ++ quoteCh ++ " not found") ∧
    getSecretRevealed c5State "db/pw" 1 "alice" "10.0.0.1" (List.replicate 32 1) =
      .error ("Secret " ++ quoteCh ++ "db/pw" ++ quoteCh ++ " not found") ∧
    updateSecret c5State "db/pw" (some "desc") none 1 =
      .error ("Secret " ++ quoteCh ++ "db/pw" ++ quoteCh ++ " not found") ∧
    rotateSecret c5State "db/pw" "hunter22" 1 (List.replicate 32 1)
        (List.replicate 32 0) [] [] (fun _ => false) =
      .error ("Secret " ++ quoteCh ++ "db/pw" ++ quoteCh ++ " not found") ∧
    deleteSecret c5State "db/pw" 1 =
      .error ("Secret " ++ quoteCh ++ "db/pw" ++ quoteCh ++ " not found")) :=
  ⟨by decide,
    lifecycle_notFound_on_inactive c5State "db/pw" 1 "alice" "10.0.0.1"
      "hunter22" "desc" (List.replicate 32 1) (List.replicate 32 0) [] []
      (by decide)⟩

end Vault
